import Mathlib

/-!
Shallow embedding of the Parity-compatible transaction tracing service
(`crates/rpc/rpc/src/trace.rs`) and proofs about its behaviour.

External collaborators (EVM execution, inspectors, block store, chain spec
catalogue) are modelled as data supplied through an environment record; the
logic of the tracing service itself is translated function by function from
the source.
-/

namespace RethTrace

/-! ## Data model (Parity trace shapes) -/

/-- Block header, with the fields the tracing service reads:
`number()`, `beneficiary()` and `hash_slow()`. Addresses and hashes are
modelled as `Nat`. -/
structure Header where
  number : Nat
  beneficiary : Nat
  hashSlow : Nat
deriving DecidableEq, Repr

/-- Recovered block: header plus optional ommer headers
(`block.body().ommers()` returns `Option<&[Header]>`). -/
structure Block where
  header : Header
  ommers : Option (List Header)
deriving DecidableEq, Repr

/-- Reward type of a synthetic reward trace. -/
inductive RewardType where
  | block
  | uncle
deriving DecidableEq, Repr

/-- Reward action carried by a synthetic reward trace. -/
structure RewardAction where
  author : Nat
  rewardType : RewardType
  value : Nat
deriving DecidableEq, Repr

/-- Call action (the fields the filter matcher can look at). -/
structure CallAction where
  sender : Nat
  toAddr : Nat
deriving DecidableEq, Repr

/-- Trace action: one of `call`, `create`, `suicide` (selfdestruct), `reward`. -/
inductive Action where
  | call : CallAction → Action
  | create : Nat → Action
  | selfdestruct : Nat → Nat → Action
  | reward : RewardAction → Action
deriving DecidableEq, Repr

/-- One frame of a transaction trace. -/
structure TransactionTrace where
  traceAddress : List Nat
  subtraces : Nat
  action : Action
  error : Option String
  result : Option Nat
deriving DecidableEq, Repr

/-- Localized transaction trace: a frame plus its position in the chain. -/
structure LocalizedTransactionTrace where
  blockHash : Option Nat
  blockNumber : Option Nat
  transactionHash : Option Nat
  transactionPosition : Option Nat
  trace : TransactionTrace
deriving DecidableEq, Repr

/-! ## Chain specification and reward schedule -/

/-- Chain id of mainnet (`MAINNET.chain()`). -/
def MAINNET_CHAIN : Nat := 1

/-- Chain id of sepolia (`SEPOLIA.chain()`). -/
def SEPOLIA_CHAIN : Nat := 11155111

/-- Modelled from the spec: the Paris activation block of mainnet.
`EthereumHardfork::Paris.mainnet_activation_block()` lives in the
`reth-chainspec` crate, which is not among the sources; the spec (§4.2)
speaks of "the mainnet Paris activation number". Its well-known value is
15537394, returned as `Some` like the accessor does. -/
def parisMainnetActivationBlock : Option Nat := some 15537394

/-- Modelled from the spec: the Paris activation block of sepolia
(`EthereumHardfork::Paris.sepolia_activation_block()`), analogous to
mainnet with sepolia's well-known value 1735371. -/
def parisSepoliaActivationBlock : Option Nat := some 1735371

/-- Rust's derived `PartialOrd` on `Option<u64>`, restricted to `>=`:
`None` is smaller than every `Some`. The source compares
`Some(header.number()) >= activation_block`. -/
def optGe : Option Nat → Option Nat → Bool
  | none, none => true
  | none, some _ => false
  | some _, none => true
  | some a, some b => decide (b ≤ a)

/-- Chain specification handle: chain id plus the pre-merge reward-schedule
cliffs the spec delegates to it. -/
structure ChainSpec where
  chain : Nat
  byzantiumBlock : Option Nat
  constantinopleBlock : Option Nat
deriving DecidableEq, Repr

/-- Activation test for an optional hardfork block: active iff the fork is
scheduled and the block number has reached it. -/
def forkActive (activation : Option Nat) (number : Nat) : Bool :=
  match activation with
  | some a => decide (a ≤ number)
  | none => false

/-- Modelled from the spec: `base_block_reward_pre_merge` is provided by the
external `alloy-evm` crate, absent from the sources. The spec (§4.2) says
"Base block reward by era: a constant determined by block number
(Frontier/Byzantium/Constantinople cliffs — the exact schedule is delegated
to the chain spec)": 5 ETH before Byzantium, 3 ETH before Constantinople,
2 ETH after. -/
def base_block_reward_pre_merge (spec : ChainSpec) (number : Nat) : Nat :=
  if forkActive spec.constantinopleBlock number then 2000000000000000000
  else if forkActive spec.byzantiumBlock number then 3000000000000000000
  else 5000000000000000000

/-- Modelled from the spec: `block_reward` (external `alloy-evm`); the spec
(§4.2) gives "Miner reward = base + base × ommer_count / 32". -/
def block_reward (base : Nat) (ommersCnt : Nat) : Nat :=
  base + base * ommersCnt / 32

/-- Modelled from the spec: `ommer_reward` (external `alloy-evm`); the spec
(§4.2) gives "Per-ommer reward = base × (8 − (block_number − ommer_number)) / 8". -/
def ommer_reward (base : Nat) (blockNumber : Nat) (ommerNumber : Nat) : Nat :=
  base * (8 - (blockNumber - ommerNumber)) / 8

/-! ## Reward calculator (`calculate_base_block_reward`, `extract_reward_traces`,
`reward_trace`) -/

/-- Paris test of `calculate_base_block_reward` (the local
`is_paris_activated` of the source): on mainnet and sepolia decided by the
header number against the chain's activation block, every other chain is
treated as Paris-already-active. -/
def is_paris_activated (spec : ChainSpec) (header : Header) : Bool :=
  if spec.chain = MAINNET_CHAIN then
    optGe (some header.number) parisMainnetActivationBlock
  else if spec.chain = SEPOLIA_CHAIN then
    optGe (some header.number) parisSepoliaActivationBlock
  else
    true

/-- Body of `calculate_base_block_reward`: nothing once Paris is active,
the pre-merge base reward for the header's number otherwise. -/
def calculate_base_block_reward (spec : ChainSpec) (header : Header) : Option Nat :=
  if is_paris_activated spec header then none
  else some (base_block_reward_pre_merge spec header.number)

/-- Translation of the free function `reward_trace`: a localized trace
describing a reward, carrying the header's hash and number and an
otherwise empty frame. -/
def reward_trace (header : Header) (reward : RewardAction) : LocalizedTransactionTrace :=
  { blockHash := some header.hashSlow
    blockNumber := some header.number
    transactionHash := none
    transactionPosition := none
    trace :=
      { traceAddress := []
        subtraces := 0
        action := Action.reward reward
        error := none
        result := none } }

/-- Translation of `extract_reward_traces`: the block reward trace for the
header's beneficiary, then one uncle reward trace per ommer in order. -/
def extract_reward_traces (header : Header) (ommers : Option (List Header))
    (baseBlockReward : Nat) : List LocalizedTransactionTrace :=
  let ommersCnt := (ommers.map List.length).getD 0
  let first := reward_trace header
    { author := header.beneficiary
      rewardType := RewardType.block
      value := block_reward baseBlockReward ommersCnt }
  match ommers with
  | none => [first]
  | some os =>
      first :: os.map (fun uncle => reward_trace header
        { author := uncle.beneficiary
          rewardType := RewardType.uncle
          value := ommer_reward baseBlockReward header.number uncle.number })

/-! ## Environment: external collaborators consumed by the service -/

/-- Error kinds surfaced by the service (`EthApiError` restricted to the
variants the traced code constructs). -/
inductive RpcError where
  | transactionNotFound
  | headerNotFound : Nat → RpcError
  | invalidParams : String → RpcError
  | internal : String → RpcError
deriving DecidableEq, Repr

/-- External collaborators of the tracing service, as consumed data:
the block store, the chain spec, the configuration, and the outputs of the
"run EVM with inspector" capabilities (per transaction hash and per block).
Block ids and transaction hashes are modelled as `Nat`. -/
structure TraceEnv where
  /-- `provider().best_block_number()`. -/
  latestBlock : Nat
  /-- Configured `max_trace_filter_blocks`. -/
  maxTraceFilterBlocks : Nat
  /-- `provider().chain_spec()`. -/
  chainSpec : ChainSpec
  /-- Canonical block at a given number, backing `recovered_block_range`. -/
  blockAt : Nat → Option Block
  /-- Output of `trace_block_until` for a block of the range: for each
  transaction of the block, in execution order, its localized traces
  (before the matcher is applied). `none` models an unknown block. -/
  blockTxTraces : Block → Option (List (List LocalizedTransactionTrace))
  /-- Output of `trace_block_with` for a block id: per transaction, in
  execution order, its localized traces. `none` models an unknown block. -/
  traceBlockWith : Nat → Option (List (List LocalizedTransactionTrace))
  /-- `eth_api().recovered_block(block_id)`. -/
  recoveredBlock : Nat → Option Block
  /-- Output of `spawn_trace_transaction_in_block` with the parity builder:
  the localized traces of the transaction with the given hash, `none` when
  the hash is unknown. -/
  txTraces : Nat → Option (List LocalizedTransactionTrace)
  /-- Output of `spawn_trace_transaction_in_block` with the
  results-with-state builder, for `replay_transaction`: `Ok(None)` when the
  hash is unknown, the trace results (modelled as `Nat`) otherwise. -/
  replayInBlock : Nat → Except RpcError (Option Nat)

/-! ## Single-point tracer: `trace_transaction`, `trace_get`,
`replay_transaction` -/

/-- Translation of `trace_transaction`: delegate to the external
transaction-replay capability, which yields the localized traces or `none`
for an unknown hash. -/
def trace_transaction (env : TraceEnv) (hash : Nat) :
    Option (List LocalizedTransactionTrace) :=
  env.txTraces hash

/-- Translation of `trace_get_index`: the trace at the given zero-based
index of `trace_transaction`, `none` when out of bounds. -/
def trace_get_index (env : TraceEnv) (hash : Nat) (index : Nat) :
    Option LocalizedTransactionTrace :=
  (trace_transaction env hash).bind (fun traces => traces[index]?)

/-- Translation of `trace_get`: `none` unless exactly one index is given,
otherwise `trace_get_index` at that index. -/
def trace_get (env : TraceEnv) (hash : Nat) (indices : List Nat) :
    Option LocalizedTransactionTrace :=
  if indices.length ≠ 1 then none
  else trace_get_index env hash (indices.headD 0)

/-- Rust's `Result<Option<T>, E>::transpose`. -/
def resultTranspose {E A : Type} : Except E (Option A) → Option (Except E A)
  | Except.ok none => none
  | Except.ok (some a) => some (Except.ok a)
  | Except.error e => some (Except.error e)

/-- Translation of `replay_transaction`: transpose the external
`Result<Option<TraceResults>>` and turn the missing case into
`TransactionNotFound`. -/
def replay_transaction (env : TraceEnv) (hash : Nat) : Except RpcError Nat :=
  match resultTranspose (env.replayInBlock hash) with
  | none => Except.error RpcError.transactionNotFound
  | some r => r

/-! ## Block tracer: `trace_block` -/

/-- Translation of `trace_block`: flatten the per-transaction localized
traces; when the recovered block is also known and pre-Paris, append its
reward traces. -/
def trace_block (env : TraceEnv) (blockId : Nat) :
    Option (List LocalizedTransactionTrace) :=
  let maybeTraces := (env.traceBlockWith blockId).map List.flatten
  match env.recoveredBlock blockId, maybeTraces with
  | some b, some traces =>
      match calculate_base_block_reward env.chainSpec b.header with
      | some baseBlockReward =>
          some (traces ++ extract_reward_traces b.header b.ommers baseBlockReward)
      | none => some traces
  | _, maybeTraces => maybeTraces

/-! ## Range filter: `trace_filter` -/

/-- Request shape of `TraceFilter` as destructured by the source:
`from_block`, `to_block`, `after`, `count` (the address sets are already
compiled into the matcher predicate). -/
structure TraceFilterReq where
  fromBlock : Option Nat
  toBlock : Option Nat
  after : Option Nat
  count : Option Nat
deriving DecidableEq, Repr

/-- Blocks of the inclusive range fetched by
`provider().recovered_block_range(start..=end)`, in ascending number
order. -/
def blockRange (env : TraceEnv) (start stop : Nat) : List Block :=
  (List.range' start (stop + 1 - start)).filterMap env.blockAt

/-- Per-block result of the `trace_block_until` job of `trace_filter`:
each transaction's localized traces restricted to those whose frame the
matcher accepts. -/
def filteredBlockTraces (env : TraceEnv)
    (matcher : TransactionTrace → Bool) (b : Block) :
    Option (List (List LocalizedTransactionTrace)) :=
  (env.blockTxTraces b).map
    (fun txs => txs.map (fun traces => traces.filter (fun t => matcher t.trace)))

/-- Concatenation of the per-block filtered transaction traces, in block
order: the `flatten`/`flat_map` pipeline over the joined block jobs. -/
def filterTxTraces (env : TraceEnv) (matcher : TransactionTrace → Bool)
    (blocks : List Block) : List LocalizedTransactionTrace :=
  ((blocks.filterMap (filteredBlockTraces env matcher)).flatten).flatten

/-- Reward-trace loop of `trace_filter`: for each block in order append its
matcher-passing reward traces, breaking at the first block where Paris is
active. -/
def rewardTracesLoop (env : TraceEnv) (matcher : TransactionTrace → Bool) :
    List Block → List LocalizedTransactionTrace
  | [] => []
  | b :: rest =>
      match calculate_base_block_reward env.chainSpec b.header with
      | some baseBlockReward =>
          (extract_reward_traces b.header b.ommers baseBlockReward).filter
              (fun t => matcher t.trace)
            ++ rewardTracesLoop env matcher rest
      | none => []

/-- Matching traces of the whole range before pagination: transaction
traces of every block, then the reward traces. -/
def trace_filter_unpaged (env : TraceEnv) (matcher : TransactionTrace → Bool)
    (start stop : Nat) : List LocalizedTransactionTrace :=
  let blocks := blockRange env start stop
  filterTxTraces env matcher blocks ++ rewardTracesLoop env matcher blocks

/-- Pagination step of `trace_filter`: drop the first `after` traces
(empty result when `after` is not smaller than the length), then truncate
to `count` when set. -/
def paginate (afterOpt countOpt : Option Nat)
    (l : List LocalizedTransactionTrace) : List LocalizedTransactionTrace :=
  let l1 := match afterOpt with
    | some a => if a < l.length then l.drop a else []
    | none => l
  match countOpt with
  | some c => if c < l1.length then l1.take c else l1
  | none => l1

/-- Translation of `trace_filter`: validate the range against the latest
block and the configured maximum span, collect the matching transaction
traces of every block of the range, append the matching reward traces of
the pre-Paris prefix, and paginate. -/
def trace_filter (env : TraceEnv) (matcher : TransactionTrace → Bool)
    (f : TraceFilterReq) :
    Except RpcError (List LocalizedTransactionTrace) :=
  let start := f.fromBlock.getD 0
  if start > env.latestBlock then
    Except.error (RpcError.headerNotFound start)
  else
    let stop := f.toBlock.getD env.latestBlock
    if start > stop then
      Except.error (RpcError.invalidParams
        "invalid parameters: fromBlock cannot be greater than toBlock")
    else if stop - start > env.maxTraceFilterBlocks then
      Except.error (RpcError.invalidParams
        "Block range too large; currently limited to 100 blocks")
    else
      Except.ok (paginate f.after f.count (trace_filter_unpaged env matcher start stop))

/-! ## Sequential batch tracer: `trace_call_many` -/

/-- External capabilities consumed by `trace_call_many`, over an abstract
overlay state `St`: `inspect` runs one call against the overlay and yields
the trace result (built from the pre-commit overlay) together with the
call's state changes; `commit` applies state changes to the overlay. -/
structure CallTracerEnv (St CallReq Res Changes : Type) where
  inspect : St → CallReq → Res × Changes
  commit : St → Changes → St

/-- Translation of `trace_call_many`: execute the calls in order on one
overlay, committing each call's state changes before the next call — and
only when a next call exists. -/
def trace_call_many {St CallReq Res Changes : Type}
    (E : CallTracerEnv St CallReq Res Changes) :
    St → List CallReq → List Res
  | _, [] => []
  | overlay, c :: rest =>
      let step := E.inspect overlay c
      match rest with
      | [] => [step.1]
      | _ :: _ => step.1 :: trace_call_many E (E.commit overlay step.2) rest

/-- Overlay state seen by call `k`: the base state with the state changes
of calls `0..k-1` committed in order. -/
def preState {St CallReq Res Changes : Type}
    (E : CallTracerEnv St CallReq Res Changes)
    (base : St) (calls : List CallReq) (k : Nat) : St :=
  (calls.take k).foldl (fun s c => E.commit s (E.inspect s c).2) base

/-! ## RPC handler layer (`TraceApiServer for TraceApi`) -/

/-- Externally invoked tracing RPC handlers. -/
inductive TraceHandler where
  | traceCall
  | traceCallMany
  | traceRawTransaction
  | replayBlockTransactions
  | replayTransaction
  | traceBlock
  | traceFilter
  | traceGet
  | traceTransaction
  | traceTransactionOpcodeGas
  | traceBlockOpcodeGas
deriving DecidableEq, Repr

/-- Control skeleton of a handler with respect to the permit gate. -/
inductive HandlerStep where
  | acquirePermit
  | doWork
  | releasePermit
deriving DecidableEq, Repr

/-- Permit-gate skeleton of each handler body in the
`TraceApiServer for TraceApi` impl, read off the source: every handler
except `trace_filter` opens with
`let _permit = self.acquire_trace_permit().await;`, does its work, and
releases the permit when the binding is dropped at the end of the body;
the `trace_filter` handler has no such binding. -/
def handlerSteps : TraceHandler → List HandlerStep
  | TraceHandler.traceCall =>
      [HandlerStep.acquirePermit, HandlerStep.doWork, HandlerStep.releasePermit]
  | TraceHandler.traceCallMany =>
      [HandlerStep.acquirePermit, HandlerStep.doWork, HandlerStep.releasePermit]
  | TraceHandler.traceRawTransaction =>
      [HandlerStep.acquirePermit, HandlerStep.doWork, HandlerStep.releasePermit]
  | TraceHandler.replayBlockTransactions =>
      [HandlerStep.acquirePermit, HandlerStep.doWork, HandlerStep.releasePermit]
  | TraceHandler.replayTransaction =>
      [HandlerStep.acquirePermit, HandlerStep.doWork, HandlerStep.releasePermit]
  | TraceHandler.traceBlock =>
      [HandlerStep.acquirePermit, HandlerStep.doWork, HandlerStep.releasePermit]
  | TraceHandler.traceFilter =>
      [HandlerStep.doWork]
  | TraceHandler.traceGet =>
      [HandlerStep.acquirePermit, HandlerStep.doWork, HandlerStep.releasePermit]
  | TraceHandler.traceTransaction =>
      [HandlerStep.acquirePermit, HandlerStep.doWork, HandlerStep.releasePermit]
  | TraceHandler.traceTransactionOpcodeGas =>
      [HandlerStep.acquirePermit, HandlerStep.doWork, HandlerStep.releasePermit]
  | TraceHandler.traceBlockOpcodeGas =>
      [HandlerStep.acquirePermit, HandlerStep.doWork, HandlerStep.releasePermit]

/-! ## Derived views used to state the ordering of `trace_filter` output -/

/-- Matcher-passing transaction traces of one block, flattened in execution
order (empty when the block is unknown to the trace capability). -/
def matchedTxTraces (env : TraceEnv) (matcher : TransactionTrace → Bool)
    (b : Block) : List LocalizedTransactionTrace :=
  ((filteredBlockTraces env matcher b).getD []).flatten

/-- Matcher-passing reward traces of one block (empty when Paris is active
for it). -/
def matchedRewardTraces (env : TraceEnv) (matcher : TransactionTrace → Bool)
    (b : Block) : List LocalizedTransactionTrace :=
  ((calculate_base_block_reward env.chainSpec b.header).map
    (fun base => (extract_reward_traces b.header b.ommers base).filter
      (fun t => matcher t.trace))).getD []

/-- Number of matcher-passing traces (transactions plus rewards) of the
range a request denotes, before pagination. -/
def total_matches (env : TraceEnv) (matcher : TransactionTrace → Bool)
    (f : TraceFilterReq) : Nat :=
  (trace_filter_unpaged env matcher (f.fromBlock.getD 0)
    (f.toBlock.getD env.latestBlock)).length

/-! ## Concrete data for witnesses and counterexamples -/

/-- Header of block 1 of the witness chain. -/
def hdrW1 : Header := { number := 1, beneficiary := 10, hashSlow := 101 }

/-- Header of block 2 of the witness chain. -/
def hdrW2 : Header := { number := 2, beneficiary := 20, hashSlow := 102 }

/-- Block 1 of the witness chain (no ommers). -/
def blkW1 : Block := { header := hdrW1, ommers := none }

/-- Block 2 of the witness chain (no ommers). -/
def blkW2 : Block := { header := hdrW2, ommers := none }

/-- Transaction trace living in block 1 of the witness chain. -/
def txTraceW1 : LocalizedTransactionTrace :=
  { blockHash := some 101
    blockNumber := some 1
    transactionHash := some 1001
    transactionPosition := some 0
    trace :=
      { traceAddress := []
        subtraces := 0
        action := Action.call { sender := 3, toAddr := 4 }
        error := none
        result := none } }

/-- Transaction trace living in block 2 of the witness chain. -/
def txTraceW2 : LocalizedTransactionTrace :=
  { blockHash := some 102
    blockNumber := some 2
    transactionHash := some 1002
    transactionPosition := some 0
    trace :=
      { traceAddress := []
        subtraces := 0
        action := Action.call { sender := 5, toAddr := 6 }
        error := none
        result := none } }

/-- Witness environment: a pre-Paris mainnet chain with two blocks, one
transaction each, latest block 10, a known transaction hash 5, and a
filter span limit of 100. -/
def envW : TraceEnv :=
  { latestBlock := 10
    maxTraceFilterBlocks := 100
    chainSpec := { chain := MAINNET_CHAIN, byzantiumBlock := none, constantinopleBlock := none }
    blockAt := fun n => if n = 1 then some blkW1 else if n = 2 then some blkW2 else none
    blockTxTraces := fun b =>
      if b = blkW1 then some [[txTraceW1]]
      else if b = blkW2 then some [[txTraceW2]]
      else none
    traceBlockWith := fun i => if i = 1 then some [[txTraceW1]] else none
    recoveredBlock := fun i => if i = 1 then some blkW1 else none
    txTraces := fun h => if h = 5 then some [txTraceW1, txTraceW2] else none
    replayInBlock := fun h => if h = 5 then Except.ok (some 42) else Except.ok none }

/-- Reward trace of witness block 1 as `trace_filter` synthesizes it. -/
def rwTraceW1 : LocalizedTransactionTrace :=
  reward_trace hdrW1
    { author := 10, rewardType := RewardType.block, value := 5000000000000000000 }

/-- Reward trace of witness block 2 as `trace_filter` synthesizes it. -/
def rwTraceW2 : LocalizedTransactionTrace :=
  reward_trace hdrW2
    { author := 20, rewardType := RewardType.block, value := 5000000000000000000 }

/-- Concrete call-tracer environment for the batch-tracer witness: the
overlay is a number, a call's result records the overlay it ran on, and
committing adds the call's change. -/
def callEnvW : CallTracerEnv Nat Nat Nat Nat :=
  { inspect := fun overlay c => (overlay * 100 + c, c)
    commit := fun overlay ch => overlay + ch }

/-- Witness environment with a small filter span limit, to exercise the
"Block range too large" rejection. -/
def envWsmall : TraceEnv :=
  { envW with maxTraceFilterBlocks := 3 }

/-! ## Helper lemmas -/

/-- Unfold `extract_reward_traces` into the block reward trace followed by
the ommer reward traces in ommer order. -/
theorem extract_reward_traces_eq (header : Header) (ommers : Option (List Header))
    (base : Nat) :
    extract_reward_traces header ommers base =
      reward_trace header
        { author := header.beneficiary
          rewardType := RewardType.block
          value := block_reward base ((ommers.map List.length).getD 0) }
      :: (ommers.getD []).map (fun uncle => reward_trace header
        { author := uncle.beneficiary
          rewardType := RewardType.uncle
          value := ommer_reward base header.number uncle.number }) := by
  cases ommers <;> rfl

/-- Every element of `extract_reward_traces` is a `reward_trace` of the
block's own header. -/
theorem mem_extract_reward_traces {header : Header} {ommers : Option (List Header)}
    {base : Nat} {t : LocalizedTransactionTrace}
    (ht : t ∈ extract_reward_traces header ommers base) :
    ∃ ra, t = reward_trace header ra := by
  rw [extract_reward_traces_eq] at ht
  rcases List.mem_cons.mp ht with h | h
  · exact ⟨_, h⟩
  · rcases List.mem_map.mp h with ⟨u, _, hu⟩
    exact ⟨_, hu.symm⟩

/-- Unfold one step of `trace_call_many`: the head call runs on the current
overlay and the tail runs on the overlay with the head's changes committed
(when the tail is empty the commit never happens, and the recursion is
unaffected by it). -/
theorem trace_call_many_cons {St CallReq Res Changes : Type}
    (E : CallTracerEnv St CallReq Res Changes) (s : St) (c : CallReq)
    (rest : List CallReq) :
    trace_call_many E s (c :: rest) =
      (E.inspect s c).1 :: trace_call_many E (E.commit s (E.inspect s c).2) rest := by
  cases rest <;> rfl

/-- Successful `trace_filter` output is the paginated unpaged trace list of
the validated range. -/
theorem trace_filter_ok_eq {env : TraceEnv} {matcher : TransactionTrace → Bool}
    {f : TraceFilterReq} {l : List LocalizedTransactionTrace}
    (h : trace_filter env matcher f = Except.ok l) :
    l = paginate f.after f.count
      (trace_filter_unpaged env matcher (f.fromBlock.getD 0)
        (f.toBlock.getD env.latestBlock)) := by
  simp only [trace_filter] at h
  split at h
  · exact Except.noConfusion h
  · split at h
    · exact Except.noConfusion h
    · split at h
      · exact Except.noConfusion h
      · exact (Except.ok.inj h).symm

/-- Length of the paginated list: the skip is saturated subtraction, the
truncation a minimum. -/
theorem paginate_length (afterOpt countOpt : Option Nat)
    (l : List LocalizedTransactionTrace) :
    (paginate afterOpt countOpt l).length =
      match countOpt with
      | some c => min c (l.length - afterOpt.getD 0)
      | none => l.length - afterOpt.getD 0 := by
  cases afterOpt with
  | none =>
    cases countOpt with
    | none => simp [paginate]
    | some c =>
      by_cases hc : c < l.length
      · simp [paginate, hc, List.length_take]
      · simp [paginate, hc, Nat.min_def]
        split <;> omega
  | some a =>
    by_cases ha : a < l.length
    · cases countOpt with
      | none => simp [paginate, ha]
      | some c =>
        by_cases hc : c < l.length - a
        · simp [paginate, ha, hc, List.length_take, List.length_drop]
        · simp [paginate, ha, hc, List.length_drop, Nat.min_def]
          split <;> omega
    · cases countOpt with
      | none =>
        simp [paginate, ha]
        omega
      | some c =>
        simp [paginate, ha, Nat.min_def]
        split <;> omega

/-- The `flatten`-of-`filterMap` pipeline of `trace_filter` is the
concatenation, block by block, of each block's matched transaction
traces. -/
theorem filterTxTraces_flatMap (env : TraceEnv)
    (matcher : TransactionTrace → Bool) (blocks : List Block) :
    filterTxTraces env matcher blocks =
      blocks.flatMap (matchedTxTraces env matcher) := by
  induction blocks with
  | nil => rfl
  | cons b bs ih =>
    cases hfb : filteredBlockTraces env matcher b with
    | none =>
      simp only [filterTxTraces] at ih ⊢
      simp [List.filterMap_cons, hfb, matchedTxTraces, ih]
    | some txs =>
      simp only [filterTxTraces] at ih ⊢
      simp [List.filterMap_cons, hfb, matchedTxTraces, ih, List.flatten_append]

/-- The reward loop of `trace_filter` — with its break at the first
Paris-active block — is the concatenation of the matched reward traces of
the longest pre-Paris prefix of the range. -/
theorem rewardTracesLoop_takeWhile (env : TraceEnv)
    (matcher : TransactionTrace → Bool) (blocks : List Block) :
    rewardTracesLoop env matcher blocks =
      (blocks.takeWhile
        (fun b => (calculate_base_block_reward env.chainSpec b.header).isSome)).flatMap
        (matchedRewardTraces env matcher) := by
  induction blocks with
  | nil => rfl
  | cons b bs ih =>
    cases hc : calculate_base_block_reward env.chainSpec b.header with
    | none =>
      simp [rewardTracesLoop, hc, List.takeWhile_cons, matchedRewardTraces]
    | some base =>
      simp [rewardTracesLoop, hc, List.takeWhile_cons, matchedRewardTraces, ih]

/-- Blocks fetched for the range have strictly ascending numbers, provided
the store returns the block of the number it was asked for. -/
theorem blockRange_numbers_ascending (env : TraceEnv) (start stop : Nat)
    (hWF : ∀ n bb, env.blockAt n = some bb → bb.header.number = n) :
    List.Pairwise (fun x y => x < y)
      ((blockRange env start stop).map (fun b => b.header.number)) := by
  rw [List.pairwise_map]
  unfold blockRange
  refine List.pairwise_filterMap.mpr ?_
  refine (List.pairwise_lt_range' start (stop + 1 - start)).imp ?_
  intro n m hnm b hb b' hb'
  rw [hWF n b (Option.mem_def.mp hb), hWF m b' (Option.mem_def.mp hb')]
  exact hnm

/-- Block store of the witness environment returns blocks at their own
number. -/
theorem envW_blockAt_number :
    ∀ n bb, envW.blockAt n = some bb → bb.header.number = n := by
  intro n bb hbb
  by_cases h1 : n = 1
  · subst h1
    have h : (some blkW1 : Option Block) = some bb := by simpa [envW] using hbb
    cases h
    rfl
  · by_cases h2 : n = 2
    · subst h2
      have h : (some blkW2 : Option Block) = some bb := by simpa [envW, h1] using hbb
      cases h
      rfl
    · simp [envW, h1, h2] at hbb

/-! ## Claim theorems -/

/-- Claim C10: every synthetic reward trace the service constructs (all of them
are produced by `extract_reward_traces`, used by both `trace_block` and
`trace_filter`) has no transaction hash, no transaction position, an empty
trace address, zero subtraces, no error and no result, and carries the
rewarded block header's hash and number. -/
theorem reward_trace_shape (header : Header) (ommers : Option (List Header))
    (base : Nat) (t : LocalizedTransactionTrace)
    (ht : t ∈ extract_reward_traces header ommers base) :
    t.transactionHash = none ∧ t.transactionPosition = none ∧
    t.trace.traceAddress = [] ∧ t.trace.subtraces = 0 ∧
    t.trace.error = none ∧ t.trace.result = none ∧
    t.blockHash = some header.hashSlow ∧ t.blockNumber = some header.number := by
  obtain ⟨ra, rfl⟩ := mem_extract_reward_traces ht
  exact ⟨rfl, rfl, rfl, rfl, rfl, rfl, rfl, rfl⟩

/-- Witness for C10 at a concrete block header. -/
theorem reward_trace_shape_witness :
    rwTraceW1.transactionHash = none ∧ rwTraceW1.transactionPosition = none ∧
    rwTraceW1.trace.traceAddress = [] ∧ rwTraceW1.trace.subtraces = 0 ∧
    rwTraceW1.trace.error = none ∧ rwTraceW1.trace.result = none ∧
    rwTraceW1.blockHash = some hdrW1.hashSlow ∧
    rwTraceW1.blockNumber = some hdrW1.number := by
  exact reward_trace_shape hdrW1 none 5000000000000000000 rwTraceW1 (by decide)

/-- Claim C9: `replay_transaction` turns the external capability's
"transaction unknown" outcome (`Ok(None)`) into a `TransactionNotFound`
error, returns the trace results whenever the replay succeeds, and
propagates external errors verbatim. -/
theorem replay_transaction_not_found (env : TraceEnv) (hash : Nat) :
    (env.replayInBlock hash = Except.ok none →
      replay_transaction env hash = Except.error RpcError.transactionNotFound)
    ∧ (∀ r, env.replayInBlock hash = Except.ok (some r) →
      replay_transaction env hash = Except.ok r)
    ∧ (∀ e, env.replayInBlock hash = Except.error e →
      replay_transaction env hash = Except.error e) := by
  refine ⟨?_, ?_, ?_⟩
  · intro h
    simp [replay_transaction, resultTranspose, h]
  · intro r h
    simp [replay_transaction, resultTranspose, h]
  · intro e h
    simp [replay_transaction, resultTranspose, h]

/-- Witness for C9 in the witness environment: hash 5 is known, hash 6 is
not. -/
theorem replay_transaction_not_found_witness :
    replay_transaction envW 6 = Except.error RpcError.transactionNotFound ∧
    replay_transaction envW 5 = Except.ok 42 := by
  exact ⟨(replay_transaction_not_found envW 6).1 rfl,
    (replay_transaction_not_found envW 5).2.1 42 rfl⟩

/-- Claim C5: `trace_get` returns `none` unless exactly one index is supplied;
with a single index it returns the trace at that zero-based position of
`trace_transaction`, and `none` when the index is past the end. -/
theorem trace_get_spec (env : TraceEnv) (hash : Nat) :
    (∀ indices, indices.length ≠ 1 → trace_get env hash indices = none)
    ∧ (∀ i ts t, trace_transaction env hash = some ts → ts[i]? = some t →
        trace_get env hash [i] = some t)
    ∧ (∀ i ts, trace_transaction env hash = some ts → ts.length ≤ i →
        trace_get env hash [i] = none) := by
  refine ⟨?_, ?_, ?_⟩
  · intro indices hlen
    simp [trace_get, hlen]
  · intro i ts t hts hgot
    simp [trace_get, trace_get_index, hts, hgot]
  · intro i ts hts hle
    simp [trace_get, trace_get_index, hts, List.getElem?_eq_none hle]

/-- Witness for C5: zero and two indices give `none`, a single in-bounds
index returns the trace at that position, a single out-of-bounds index
gives `none`. -/
theorem trace_get_spec_witness :
    trace_get envW 5 [] = none ∧
    trace_get envW 5 [0, 1] = none ∧
    trace_get envW 5 [1] = some txTraceW2 ∧
    trace_get envW 5 [2] = none := by
  refine ⟨(trace_get_spec envW 5).1 [] (by decide),
    (trace_get_spec envW 5).1 [0, 1] (by decide),
    (trace_get_spec envW 5).2.1 1 [txTraceW1, txTraceW2] txTraceW2 (by decide) (by decide),
    (trace_get_spec envW 5).2.2 2 [txTraceW1, txTraceW2] (by decide) (by decide)⟩

/-- Claim C2 counterexample: the `trace_filter` RPC handler body never acquires a
permit from the permit gate, so not every externally invoked tracing RPC
handler acquires one before doing its work. -/
theorem trace_filter_handler_no_permit :
    HandlerStep.acquirePermit ∉ handlerSteps TraceHandler.traceFilter := by
  decide

/-- Claim C2 amended: every externally invoked tracing RPC handler except
`trace_filter` acquires one permit from the permit gate before doing any
work and holds it for the duration of the operation (releasing it last). -/
theorem handlers_acquire_permit_except_filter (h : TraceHandler)
    (hne : h ≠ TraceHandler.traceFilter) :
    handlerSteps h =
      [HandlerStep.acquirePermit, HandlerStep.doWork, HandlerStep.releasePermit] := by
  cases h <;> first | rfl | exact absurd rfl hne

/-- Witness for the amended C2 at the `trace_call` handler. -/
theorem handlers_acquire_permit_witness :
    handlerSteps TraceHandler.traceCall =
      [HandlerStep.acquirePermit, HandlerStep.doWork, HandlerStep.releasePermit] := by
  exact handlers_acquire_permit_except_filter TraceHandler.traceCall (by decide)

/-- Claim C6: `calculate_base_block_reward` yields no reward exactly when Paris
is active — on mainnet and sepolia when the header number has reached the
chain's Paris activation block, on every other chain always — and yields
the pre-merge base block reward for the header's number otherwise. -/
theorem calculate_base_block_reward_paris (spec : ChainSpec) (header : Header) :
    (spec.chain = MAINNET_CHAIN →
      ∀ a, parisMainnetActivationBlock = some a →
        (calculate_base_block_reward spec header = none ↔ a ≤ header.number))
    ∧ (spec.chain = SEPOLIA_CHAIN →
      ∀ a, parisSepoliaActivationBlock = some a →
        (calculate_base_block_reward spec header = none ↔ a ≤ header.number))
    ∧ (spec.chain ≠ MAINNET_CHAIN → spec.chain ≠ SEPOLIA_CHAIN →
        calculate_base_block_reward spec header = none)
    ∧ (∀ r, calculate_base_block_reward spec header = some r →
        r = base_block_reward_pre_merge spec header.number) := by
  refine ⟨?_, ?_, ?_, ?_⟩
  · intro hm a ha
    by_cases hle : a ≤ header.number <;>
      simp [calculate_base_block_reward, is_paris_activated, hm, ha, optGe, hle]
  · intro hs a ha
    have hnm : spec.chain ≠ MAINNET_CHAIN := by
      rw [hs]; decide
    by_cases hle : a ≤ header.number <;>
      simp [calculate_base_block_reward, is_paris_activated, hs, hnm, ha, optGe, hle,
        SEPOLIA_CHAIN, MAINNET_CHAIN]
  · intro hnm hns
    simp [calculate_base_block_reward, is_paris_activated, hnm, hns]
  · intro r hr
    cases h : is_paris_activated spec header
    · simp [calculate_base_block_reward, h] at hr
      exact hr.symm
    · simp [calculate_base_block_reward, h] at hr

/-- Witness for C6: on the witness mainnet chain a pre-Paris header gets
the pre-merge reward and a post-Paris header gets none. -/
theorem calculate_base_block_reward_paris_witness :
    (calculate_base_block_reward envW.chainSpec hdrW1 = none ↔
      15537394 ≤ hdrW1.number) ∧
    (∀ r, calculate_base_block_reward envW.chainSpec hdrW1 = some r →
      r = base_block_reward_pre_merge envW.chainSpec hdrW1.number) := by
  exact ⟨(calculate_base_block_reward_paris envW.chainSpec hdrW1).1 (by decide)
      15537394 (by decide),
    (calculate_base_block_reward_paris envW.chainSpec hdrW1).2.2.2⟩

/-- Claim C8: `trace_call_many` yields one result per call, in input order, and
the `k`-th result is the head call's inspection of the overlay holding the
base state with the changes of calls `0..k-1` committed; the last call's
changes are never committed (the recursion stops before any further
commit). -/
theorem trace_call_many_sequential {St CallReq Res Changes : Type}
    (E : CallTracerEnv St CallReq Res Changes) (base : St)
    (calls : List CallReq) :
    (trace_call_many E base calls).length = calls.length ∧
    ∀ k (hk : k < calls.length),
      (trace_call_many E base calls)[k]? =
        some (E.inspect (preState E base calls k) (calls.get ⟨k, hk⟩)).1 := by
  induction calls generalizing base with
  | nil => exact ⟨rfl, fun k hk => absurd hk (by simp)⟩
  | cons c rest ih =>
    rw [trace_call_many_cons]
    refine ⟨by simp [(ih (E.commit base (E.inspect base c).2)).1], ?_⟩
    intro k hk
    cases k with
    | zero => simp [preState]
    | succ k =>
      have hk' : k < rest.length := Nat.lt_of_succ_lt_succ hk
      have hgot := (ih (E.commit base (E.inspect base c).2)).2 k hk'
      have hpre : preState E base (c :: rest) (k + 1) =
          preState E (E.commit base (E.inspect base c).2) rest k := by
        simp [preState, List.take_succ_cons]
      have hget : (c :: rest).get ⟨k + 1, hk⟩ = rest.get ⟨k, hk'⟩ := rfl
      rw [List.getElem?_cons_succ, hpre, hget]
      exact hgot

/-- Witness for C8: two dependent calls on the concrete call tracer; the
second call's result is computed from the overlay carrying the first
call's committed change. -/
theorem trace_call_many_sequential_witness :
    (trace_call_many callEnvW 1 [3, 4]).length = 2 ∧
    (trace_call_many callEnvW 1 [3, 4])[1]? = some 404 := by
  refine ⟨(trace_call_many_sequential callEnvW 1 [3, 4]).1, ?_⟩
  have h := (trace_call_many_sequential callEnvW 1 [3, 4]).2 1 (by decide)
  rw [h]
  rfl

/-- Claim C3: `trace_filter` rejects with a header-not-found error when the
requested start exceeds the latest block; otherwise with invalid-params
when the start exceeds the end; otherwise with the "Block range too large"
invalid-params error when the span exceeds the configured maximum; and
succeeds when none of these hold. -/
theorem trace_filter_validation (env : TraceEnv)
    (matcher : TransactionTrace → Bool) (f : TraceFilterReq) :
    (env.latestBlock < f.fromBlock.getD 0 →
      trace_filter env matcher f =
        Except.error (RpcError.headerNotFound (f.fromBlock.getD 0)))
    ∧ (f.fromBlock.getD 0 ≤ env.latestBlock →
       f.toBlock.getD env.latestBlock < f.fromBlock.getD 0 →
      trace_filter env matcher f = Except.error (RpcError.invalidParams
        "invalid parameters: fromBlock cannot be greater than toBlock"))
    ∧ (f.fromBlock.getD 0 ≤ env.latestBlock →
       f.fromBlock.getD 0 ≤ f.toBlock.getD env.latestBlock →
       env.maxTraceFilterBlocks <
         f.toBlock.getD env.latestBlock - f.fromBlock.getD 0 →
      trace_filter env matcher f = Except.error (RpcError.invalidParams
        "Block range too large; currently limited to 100 blocks"))
    ∧ (f.fromBlock.getD 0 ≤ env.latestBlock →
       f.fromBlock.getD 0 ≤ f.toBlock.getD env.latestBlock →
       f.toBlock.getD env.latestBlock - f.fromBlock.getD 0 ≤
         env.maxTraceFilterBlocks →
      ∃ l, trace_filter env matcher f = Except.ok l) := by
  refine ⟨?_, ?_, ?_, ?_⟩
  · intro h1
    simp [trace_filter, h1]
  · intro h1 h2
    simp [trace_filter, Nat.not_lt.mpr h1, h2]
  · intro h1 h2 h3
    simp [trace_filter, Nat.not_lt.mpr h1, Nat.not_lt.mpr h2, h3]
  · intro h1 h2 h3
    refine ⟨paginate f.after f.count (trace_filter_unpaged env matcher
      (f.fromBlock.getD 0) (f.toBlock.getD env.latestBlock)), ?_⟩
    simp [trace_filter, Nat.not_lt.mpr h1, Nat.not_lt.mpr h2, Nat.not_lt.mpr h3]

/-- Witness for C3: a start past the latest block, an inverted range, and
a span past a small configured maximum are each rejected with the
corresponding error. -/
theorem trace_filter_validation_witness :
    trace_filter envW (fun _ => true) ⟨some 11, none, none, none⟩ =
      Except.error (RpcError.headerNotFound 11) ∧
    trace_filter envW (fun _ => true) ⟨some 5, some 3, none, none⟩ =
      Except.error (RpcError.invalidParams
        "invalid parameters: fromBlock cannot be greater than toBlock") ∧
    trace_filter envWsmall (fun _ => true) ⟨some 1, some 9, none, none⟩ =
      Except.error (RpcError.invalidParams
        "Block range too large; currently limited to 100 blocks") := by
  refine ⟨?_, ?_, ?_⟩
  · exact (trace_filter_validation envW (fun _ => true)
      ⟨some 11, none, none, none⟩).1 (by decide)
  · exact (trace_filter_validation envW (fun _ => true)
      ⟨some 5, some 3, none, none⟩).2.1 (by decide) (by decide)
  · exact (trace_filter_validation envWsmall (fun _ => true)
      ⟨some 1, some 9, none, none⟩).2.2.1 (by decide) (by decide) (by decide)

/-- Claim C4: a successful `trace_filter` result has length
`min(count, total_matches − after)` when `count` is set and
`total_matches − after` otherwise (`−` is saturated), with `after`
defaulting to 0; when `after` is at least the number of matches the result
is the empty list. -/
theorem trace_filter_result_length (env : TraceEnv)
    (matcher : TransactionTrace → Bool) (f : TraceFilterReq)
    (l : List LocalizedTransactionTrace)
    (h : trace_filter env matcher f = Except.ok l) :
    (l.length = match f.count with
      | some c => min c (total_matches env matcher f - f.after.getD 0)
      | none => total_matches env matcher f - f.after.getD 0)
    ∧ (∀ a, f.after = some a → total_matches env matcher f ≤ a → l = []) := by
  have hl := trace_filter_ok_eq h
  constructor
  · rw [hl, paginate_length]
    rfl
  · intro a ha hle
    rw [hl, ha]
    simp only [total_matches] at hle
    have hnot : ¬ a < (trace_filter_unpaged env matcher (f.fromBlock.getD 0)
        (f.toBlock.getD env.latestBlock)).length := Nat.not_lt.mpr hle
    cases hc : f.count <;> simp [paginate, hnot]

/-- Witness for C4: a request over the two witness blocks with four
matching traces, `after = 1` and `count = 2`, yields exactly
`min 2 (4 − 1) = 2` traces. -/
theorem trace_filter_result_length_witness :
    ([txTraceW2, rwTraceW1] : List LocalizedTransactionTrace).length =
      min 2 (total_matches envW (fun _ => true)
        ⟨some 1, some 2, some 1, some 2⟩ - 1) := by
  have h := (trace_filter_result_length envW (fun _ => true)
    ⟨some 1, some 2, some 1, some 2⟩ [txTraceW2, rwTraceW1] (by rfl)).1
  simpa using h

/-- Claim C7: for a known block with known traces, `trace_block` appends — when
the block is pre-Paris — exactly `k+1` reward traces after the transaction
traces: first the `Block`-type reward to the header's beneficiary, then
one `Uncle`-type reward per ommer to its beneficiary, in ommer order;
when Paris is active it appends none. -/
theorem trace_block_reward_traces (env : TraceEnv) (blockId : Nat)
    (b : Block) (txs : List (List LocalizedTransactionTrace))
    (hb : env.recoveredBlock blockId = some b)
    (ht : env.traceBlockWith blockId = some txs) :
    (∀ base, calculate_base_block_reward env.chainSpec b.header = some base →
      trace_block env blockId = some (txs.flatten ++
        reward_trace b.header
          { author := b.header.beneficiary
            rewardType := RewardType.block
            value := block_reward base ((b.ommers.map List.length).getD 0) }
        :: (b.ommers.getD []).map (fun uncle => reward_trace b.header
          { author := uncle.beneficiary
            rewardType := RewardType.uncle
            value := ommer_reward base b.header.number uncle.number }))
      ∧ (extract_reward_traces b.header b.ommers base).length =
          (b.ommers.map List.length).getD 0 + 1)
    ∧ (calculate_base_block_reward env.chainSpec b.header = none →
      trace_block env blockId = some txs.flatten) := by
  constructor
  · intro base hbase
    constructor
    · simp [trace_block, hb, ht, hbase, extract_reward_traces_eq]
    · rw [extract_reward_traces_eq]
      simp only [List.length_cons, List.length_map]
      cases b.ommers <;> rfl
  · intro hbase
    simp [trace_block, hb, ht, hbase]

/-- Witness for C7: the witness block 1 (pre-Paris, no ommers) gets its
transaction trace followed by exactly one `Block`-type reward trace. -/
theorem trace_block_reward_traces_witness :
    trace_block envW 1 = some [txTraceW1, rwTraceW1] := by
  have h := (trace_block_reward_traces envW 1 blkW1 [[txTraceW1]]
    rfl rfl).1 5000000000000000000 (by decide)
  rw [h.1]
  rfl

/-- Claim C1 counterexample: with two pre-Paris blocks and an all-pass matcher,
`trace_filter` returns both blocks' transaction traces first and both
blocks' reward traces after them — the block-1 reward trace (position 2)
comes after the block-2 transaction trace (position 1), so reward traces
do not precede the transaction traces of later blocks as claimed. -/
theorem trace_filter_interleaving_counterexample :
    trace_filter envW (fun _ => true) ⟨some 1, some 2, none, none⟩ =
      Except.ok [txTraceW1, txTraceW2, rwTraceW1, rwTraceW2]
    ∧ txTraceW2.blockNumber = some 2
    ∧ txTraceW2.trace.action = Action.call { sender := 5, toAddr := 6 }
    ∧ rwTraceW1.blockNumber = some 1
    ∧ rwTraceW1.trace.action = Action.reward
        { author := 10
          rewardType := RewardType.block
          value := 5000000000000000000 } := by
  refine ⟨?_, rfl, rfl, rfl, rfl⟩
  rfl

/-- Claim C1 amended: an unpaginated `trace_filter` result is the matching
transaction traces of all blocks of the range, block-ascending with
per-block execution order, followed by the matching reward traces of the
range's longest pre-Paris prefix, block-ascending (and within one block:
block reward first, then ommer rewards in ommer order, by
`extract_reward_traces_eq`); block numbers of the fetched range are
strictly ascending when the store is number-faithful. -/
theorem trace_filter_order_amended (env : TraceEnv)
    (matcher : TransactionTrace → Bool) (f : TraceFilterReq)
    (l : List LocalizedTransactionTrace)
    (hWF : ∀ n bb, env.blockAt n = some bb → bb.header.number = n)
    (hafter : f.after = none) (hcount : f.count = none)
    (h : trace_filter env matcher f = Except.ok l) :
    l = (blockRange env (f.fromBlock.getD 0)
          (f.toBlock.getD env.latestBlock)).flatMap
        (matchedTxTraces env matcher)
      ++ ((blockRange env (f.fromBlock.getD 0)
          (f.toBlock.getD env.latestBlock)).takeWhile
          (fun b => (calculate_base_block_reward env.chainSpec b.header).isSome)).flatMap
        (matchedRewardTraces env matcher)
    ∧ List.Pairwise (fun x y => x < y)
        ((blockRange env (f.fromBlock.getD 0)
          (f.toBlock.getD env.latestBlock)).map (fun b => b.header.number)) := by
  have hl := trace_filter_ok_eq h
  rw [hafter, hcount] at hl
  constructor
  · rw [hl]
    show trace_filter_unpaged env matcher (f.fromBlock.getD 0)
      (f.toBlock.getD env.latestBlock) = _
    simp only [trace_filter_unpaged]
    rw [filterTxTraces_flatMap, rewardTracesLoop_takeWhile]
  · exact blockRange_numbers_ascending env (f.fromBlock.getD 0)
      (f.toBlock.getD env.latestBlock) hWF

/-- Witness for the amended C1 on the witness environment: the output
decomposes into the two transaction traces followed by the two reward
traces, and the fetched block numbers [1, 2] are strictly ascending. -/
theorem trace_filter_order_amended_witness :
    ([txTraceW1, txTraceW2, rwTraceW1, rwTraceW2] :
        List LocalizedTransactionTrace) =
      (blockRange envW 1 2).flatMap (matchedTxTraces envW (fun _ => true))
      ++ ((blockRange envW 1 2).takeWhile
          (fun b => (calculate_base_block_reward envW.chainSpec b.header).isSome)).flatMap
        (matchedRewardTraces envW (fun _ => true))
    ∧ List.Pairwise (fun x y => x < y)
        ((blockRange envW 1 2).map (fun b => b.header.number)) := by
  have h := trace_filter_order_amended envW (fun _ => true)
    ⟨some 1, some 2, none, none⟩ [txTraceW1, txTraceW2, rwTraceW1, rwTraceW2]
    envW_blockAt_number rfl rfl (by rfl)
  simpa using h

end RethTrace
